import Mathlib

/-!
Verification development for the agent orchestration core of the
yusufs-personal-ai repository.

The Lean definitions below are a shallow embedding of the Python source:

* `src/agent/agent.py` — the ReAct agent: `Agent._parse_response`,
  `Agent._extract_focus`, `Agent._call_llm`, `Agent._get_memory_context`,
  `Agent.run`;
* `src/agent/tools.py` — `ToolRegistry`;
* `src/storage/focus_store.py` — `FocusStore`;
* `src/storage/llm_log_store.py` — `LLMLogStore.log_request`;
* `src/storage/interactions_store.py` — `InteractionsStore`.

Modelling conventions:

* Python strings are Lean `String` / `List Char`; the fragment of Python
  regular expressions actually used by the parser is implemented directly
  (literal, greedy whitespace run with backtracking, lazy dot-group, literal
  lookahead alternatives), restricted to the ASCII character classes.
* Python exceptions are modelled with `Except String`; a caught exception
  corresponds to matching on the `Except.error` case.
* `json.loads` is an external standard-library call and is passed in as an
  oracle `String → Option PyVal` (returning `none` exactly when the call
  would raise `json.JSONDecodeError`).
* External collaborators (the LLM backend, the embedding API, Supabase reads
  done by the memory subsystem, the prompt template rendering that only
  produces opaque prompt text) are fields of an `Env` record; the database
  tables written by the orchestrator are explicit state (`StoreState`).
-/

/-! ### Python character classes (ASCII fragment)

Python `\s` on ASCII is space, tab, newline, carriage return, vertical tab
and form feed; `\w` on ASCII is letters, digits and underscore. The source
only ever feeds chat text through these patterns; the embedding fixes the
ASCII interpretation.
-/

/-- Python `str.strip()` / regex `\s` whitespace test (ASCII fragment). -/
def pyIsSpace (c : Char) : Bool :=
  c = ' ' || c = '\t' || c = '\n' || c = '\r' || c = Char.ofNat 11 || c = Char.ofNat 12

/-- Python regex `\w` word-character test (ASCII fragment). -/
def pyIsWordChar (c : Char) : Bool :=
  c.isAlphanum || c = '_'

/-- Case-insensitive character comparison, as used by `re.IGNORECASE`. -/
def charEqCI (a b : Char) : Bool :=
  a.toLower = b.toLower

/-- Does the list `l` start with the literal `lit` (case-sensitive)? -/
def startsWithList : List Char → List Char → Bool
  | [], _ => true
  | _ :: _, [] => false
  | a :: as, b :: bs => a = b && startsWithList as bs

/-- Does the list `l` start with the literal `lit`, ignoring case? -/
def startsWithCI : List Char → List Char → Bool
  | [], _ => true
  | _ :: _, [] => false
  | a :: as, b :: bs => charEqCI a b && startsWithCI as bs

/-- Left-to-right scan: return the result of the first position at which the
position matcher `mAt` succeeds, like `re.search` trying successive start
offsets. -/
def scanFirst (mAt : List Char → Option α) : List Char → Option α
  | [] => mAt []
  | c :: cs =>
    match mAt (c :: cs) with
    | some r => some r
    | none => scanFirst mAt cs

/-- Position matcher for a plain literal: on success, return the text after
the literal. -/
def litSplitAt (lit : List Char) (t : List Char) : Option (List Char) :=
  if startsWithList lit t then some (t.drop lit.length) else none

/-- Python `s.split(lit, 1)[1]`: text after the first occurrence of `lit`,
or `none` when `lit` does not occur (Python `lit in s` is false). -/
def splitAfterFirst (lit l : List Char) : Option (List Char) :=
  scanFirst (litSplitAt lit) l

/-- Python substring test `lit in s`. -/
def containsLit (lit l : List Char) : Bool :=
  (splitAfterFirst lit l).isSome

/-- Python `str.strip()` (whitespace from both ends). -/
def stripList (l : List Char) : List Char :=
  List.rdropWhile pyIsSpace (List.dropWhile pyIsSpace l)

/-- Python `str.strip()` on `String`. -/
def pyStrip (s : String) : String :=
  String.mk (stripList s.data)

/-! ### The regex fragment used by `Agent._parse_response`

All four patterns of `src/agent/agent.py` have the shape
`LIT\s*(.+?)(?=ALT1|…|$)` (three of them) or `LIT\s*(\w+)` (the action
name). The engine below reproduces Python `re.search` backtracking for
exactly this shape: the scan tries successive start offsets; at an offset
where the literal matches, the greedy `\s*` first takes the maximal
whitespace run and gives characters back one at a time, and for each such
split the lazy `(.+?)` grows from one character until the lookahead holds.
-/

/-- What `.` matches: any character, or any character except newline when
`re.DOTALL` is off. -/
def dotMatch (dotall : Bool) (c : Char) : Bool :=
  dotall || !(c = '\n')

/-- Lazy `(.+?)(?=look)`: consume at least one character, stopping at the
first point where the lookahead holds; `acc` accumulates the group. -/
def lazyScan (look : List Char → Bool) (dotall : Bool) : List Char → List Char → Option (List Char)
  | _, [] => none
  | acc, c :: cs =>
    if dotMatch dotall c then
      if look cs then some (acc ++ [c])
      else lazyScan look dotall (acc ++ [c]) cs
    else none

/-- Greedy `\s*` backtracking: try skipping `k` whitespace characters, from
the maximal run length down to zero, running the lazy group from each
split. -/
def wsBacktrack (look : List Char → Bool) (dotall : Bool) (t : List Char) : Nat → Option (List Char)
  | 0 => lazyScan look dotall [] t
  | k + 1 =>
    match lazyScan look dotall [] (t.drop (k + 1)) with
    | some g => some g
    | none => wsBacktrack look dotall t k

/-- Match `\s*(.+?)(?=look)` at the start of `t`. -/
def matchAfterLit (look : List Char → Bool) (dotall : Bool) (t : List Char) : Option (List Char) :=
  wsBacktrack look dotall t (t.takeWhile pyIsSpace).length

/-- Position matcher for `LIT\s*(.+?)(?=look)`. -/
def lazyPatternAt (lit : List Char) (ci dotall : Bool) (look : List Char → Bool)
    (t : List Char) : Option (List Char) :=
  if (if ci then startsWithCI lit t else startsWithList lit t) then
    matchAfterLit look dotall (t.drop lit.length)
  else none

/-- `re.search` for `LIT\s*(.+?)(?=look)`, returning group 1. -/
def lazyPatternSearch (lit : List Char) (ci dotall : Bool) (look : List Char → Bool)
    (l : List Char) : Option (List Char) :=
  scanFirst (lazyPatternAt lit ci dotall look) l

/-- Marker literal `FINAL_ANSWER:`. -/
def finalAnswerLit : List Char := "FINAL_ANSWER:".data

/-- Marker literal `DRAFT_FOR_APPROVAL:`. -/
def draftLit : List Char := "DRAFT_FOR_APPROVAL:".data

/-- Marker literal `ACTION:`. -/
def actionLit : List Char := "ACTION:".data

/-- Marker literal `ACTION_INPUT:`. -/
def actionInputLit : List Char := "ACTION_INPUT:".data

/-- Marker literal `THOUGHT:`. -/
def thoughtLit : List Char := "THOUGHT:".data

/-- Marker literal `FOCUS:`. -/
def focusLit : List Char := "FOCUS:".data

/-- Lookahead of the focus pattern, `(?=\n|ACTION:|FINAL_ANSWER:|DRAFT_FOR_APPROVAL:|$)`
under `re.IGNORECASE` (agent.py line 255). -/
def focusLook (t : List Char) : Bool :=
  (match t with | c :: _ => c = '\n' | [] => false)
    || startsWithCI actionLit t || startsWithCI finalAnswerLit t
    || startsWithCI draftLit t || t.isEmpty

/-- Lookahead of the thought pattern, `(?=FOCUS:|ACTION:|$)` (agent.py line 293). -/
def thoughtLook (t : List Char) : Bool :=
  startsWithList focusLit t || startsWithList actionLit t || t.isEmpty

/-- Lookahead of the action-input pattern, `(?=THOUGHT:|ACTION:|FOCUS:|$)`
(agent.py line 305). -/
def inputLook (t : List Char) : Bool :=
  startsWithList thoughtLit t || startsWithList actionLit t
    || startsWithList focusLit t || t.isEmpty

/-- The search `re.search(r"FOCUS:\s*(.+?)(?=\n|ACTION:|FINAL_ANSWER:|DRAFT_FOR_APPROVAL:|$)", s, re.IGNORECASE)`
(agent.py line 255), group 1. -/
def focusSearch (l : List Char) : Option (List Char) :=
  lazyPatternSearch focusLit true false focusLook l

/-- The search `re.search(r"THOUGHT:\s*(.+?)(?=FOCUS:|ACTION:|$)", s, re.DOTALL)`
(agent.py line 293), group 1. -/
def thoughtSearch (l : List Char) : Option (List Char) :=
  lazyPatternSearch thoughtLit false true thoughtLook l

/-- The search `re.search(r"ACTION_INPUT:\s*(.+?)(?=THOUGHT:|ACTION:|FOCUS:|$)", s, re.DOTALL)`
(agent.py line 305), group 1. -/
def actionInputSearch (l : List Char) : Option (List Char) :=
  lazyPatternSearch actionInputLit false true inputLook l

/-- Position matcher for `ACTION:\s*(\w+)` (agent.py line 298). Backtracking
the greedy `\s*` can never rescue a failed `\w+` because no whitespace
character is a word character, so the maximal-run form below is exact. -/
def actionNameAt (t : List Char) : Option (List Char) :=
  if startsWithList actionLit t then
    let tok := ((t.drop actionLit.length).dropWhile pyIsSpace).takeWhile pyIsWordChar
    if tok.isEmpty then none else some tok
  else none

/-- The search `re.search(r"ACTION:\s*(\w+)", s)` (agent.py line 298), group 1. -/
def actionNameSearch (l : List Char) : Option (List Char) :=
  scanFirst actionNameAt l

/-- Python `str.rstrip(".")`. -/
def rstripDots (l : List Char) : List Char :=
  List.rdropWhile (fun c => c = '.') l

/-- `Agent._extract_focus` (agent.py lines 244-261): group 1 of the focus
pattern, stripped, with trailing periods removed; empty results become
`None`. -/
def extract_focus (s : String) : Option String :=
  match focusSearch s.data with
  | none => none
  | some g =>
    let f := rstripDots (stripList g)
    if f.isEmpty then none else some (String.mk f)

/-! ### Python values and the parsed agent response -/

/-- A fragment of Python values large enough for `json.loads` results,
action inputs and turn metadata. -/
inductive PyVal where
  | str : String → PyVal
  | int : Int → PyVal
  | bool : Bool → PyVal
  | pnone : PyVal
  | list : List PyVal → PyVal
  | dict : List (String × PyVal) → PyVal

/-- The `AgentResponse` dataclass (agent.py lines 20-27). -/
structure AgentResponse where
  type : String
  content : String
  action_name : Option String
  action_input : Option PyVal
  focus : Option String

/-- `Agent._parse_response` (agent.py lines 263-326). `jsonLoads` is the
`json.loads` oracle: `none` models a raised `json.JSONDecodeError`, which
the source catches, substituting the raw-input fallback dictionary. -/
def parse_response (jsonLoads : String → Option PyVal) (response0 : String) : AgentResponse :=
  let resp := pyStrip response0
  let focus := extract_focus resp
  match splitAfterFirst finalAnswerLit resp.data with
  | some rest =>
    { type := "final_answer", content := String.mk (stripList rest),
      action_name := none, action_input := none, focus := focus }
  | none =>
  match splitAfterFirst draftLit resp.data with
  | some rest =>
    { type := "draft_for_approval", content := String.mk (stripList rest),
      action_name := none, action_input := none, focus := focus }
  | none =>
  if containsLit actionLit resp.data then
    let thought :=
      if containsLit thoughtLit resp.data then
        match thoughtSearch resp.data with
        | some g => String.mk (stripList g)
        | none => ""
      else ""
    match actionNameSearch resp.data with
    | none =>
      { type := "thought", content := resp,
        action_name := none, action_input := none, focus := focus }
    | some nm =>
      let action_input :=
        match actionInputSearch resp.data with
        | none => PyVal.dict []
        | some g =>
          let inputStr := String.mk (stripList g)
          match jsonLoads inputStr with
          | some v => v
          | Option.none => PyVal.dict [("raw_input", PyVal.str inputStr)]
      { type := "action", content := thought,
        action_name := some (String.mk nm), action_input := some action_input,
        focus := focus }
  else
    match splitAfterFirst thoughtLit resp.data with
    | some rest =>
      { type := "thought", content := String.mk (stripList rest),
        action_name := none, action_input := none, focus := focus }
    | none =>
      { type := "thought", content := resp,
        action_name := none, action_input := none, focus := focus }

/-! ### Tool registry (src/agent/tools.py) -/

/-- The `Tool` dataclass (tools.py lines 9-15). A handler is a Python
callable that may raise: `PyVal → Except String String`; the keyword
arguments it is unpacked with are bundled as one `PyVal`. -/
structure Tool where
  name : String
  description : String
  func : PyVal → Except String String
  parameters : PyVal

/-- Ordered-dictionary lookup. -/
def assocLookup (k : String) : List (String × α) → Option α
  | [] => none
  | (k0, v0) :: rest => if k0 = k then some v0 else assocLookup k rest

/-- Ordered-dictionary insert with Python dict semantics: an existing key
keeps its position and gets the new value, a new key is appended. -/
def assocInsert (k : String) (v : α) : List (String × α) → List (String × α)
  | [] => [(k, v)]
  | (k0, v0) :: rest => if k0 = k then (k0, v) :: rest else (k0, v0) :: assocInsert k v rest

/-- `ToolRegistry` (tools.py lines 18-70): the `tools` dict. The unrelated
client fields (`_gmail_client`, …) live inside the handlers here. -/
structure ToolRegistry where
  tools : List (String × Tool)

/-- `ToolRegistry.register` (tools.py lines 44-46). -/
def ToolRegistry.register (reg : ToolRegistry) (t : Tool) : ToolRegistry :=
  { tools := assocInsert t.name t reg.tools }

/-- `ToolRegistry.get` (tools.py lines 48-50). -/
def ToolRegistry.get (reg : ToolRegistry) (name : String) : Option Tool :=
  assocLookup name reg.tools

/-- `ToolRegistry.execute` (tools.py lines 52-57): unknown names raise
`ValueError(f"Unknown tool: {name}")` — the error the spec calls
`ToolNotFound` — and handler outcomes are returned/raised unchanged. -/
def ToolRegistry.execute (reg : ToolRegistry) (name : String) (kwargs : PyVal) :
    Except String String :=
  match reg.get name with
  | none => Except.error ("Unknown tool: " ++ name)
  | some t => t.func kwargs

/-- Python `d.get(k)` on a dict value. -/
def pyDictGet (k : String) : PyVal → Option PyVal
  | PyVal.dict l => assocLookup k l
  | _ => none

/-- Python truthiness on the modelled values. -/
def pyTruthy : PyVal → Bool
  | PyVal.str s => !(s = "")
  | PyVal.int n => !(n = 0)
  | PyVal.bool b => b
  | PyVal.pnone => false
  | PyVal.list l => !l.isEmpty
  | PyVal.dict l => !l.isEmpty

/-- Python `name in required_list` for a JSON-schema `required` list. -/
def pyStrListContains (v : PyVal) (s : String) : Bool :=
  match v with
  | PyVal.list l => l.any (fun x => match x with | PyVal.str t => t = s | _ => false)
  | _ => false

/-- `param_info.get("description", "")`; the schemas in the source only use
string descriptions. -/
def schemaDescription (pinfo : PyVal) : String :=
  match pyDictGet "description" pinfo with
  | some (PyVal.str s) => s
  | _ => ""

/-- The lines produced for one tool by `ToolRegistry.get_descriptions`
(tools.py lines 59-70). -/
def toolDescLines (name : String) (tool : Tool) : List String :=
  let head := "- **" ++ name ++ "**: " ++ tool.description
  match pyDictGet "properties" tool.parameters with
  | some props =>
    if pyTruthy props then
      let reqs := (pyDictGet "required" tool.parameters).getD (PyVal.list [])
      let paramLines :=
        match props with
        | PyVal.dict pl =>
          pl.map (fun q =>
            let reqStr := if pyStrListContains reqs q.1 then " (required)" else ""
            "    - " ++ q.1 ++ ": " ++ schemaDescription q.2 ++ reqStr)
        | _ => []
      head :: "  Parameters:" :: paramLines
    else [head]
  | none => [head]

/-- `ToolRegistry.get_descriptions` (tools.py lines 59-70). -/
def ToolRegistry.get_descriptions (reg : ToolRegistry) : String :=
  String.intercalate "\n" (reg.tools.foldr (fun p acc => toolDescLines p.1 p.2 ++ acc) [])

/-! ### Focus store (src/storage/focus_store.py)

The `current_focus` table has one row per `user_id` (the upsert conflict
key), modelled as an ordered association list. -/

/-- The `current_focus` table. -/
abbrev FocusTable := List (String × String)

/-- `FocusStore.get_focus` (focus_store.py lines 22-40): the `focus` column
of the row whose `user_id` matches, or `None` when no row matches. -/
def FocusStore.get_focus (tbl : FocusTable) (user_id : String) : Option String :=
  assocLookup user_id tbl

/-- `FocusStore.set_focus` (focus_store.py lines 42-57): upsert keyed on
`user_id`. -/
def FocusStore.set_focus (tbl : FocusTable) (user_id focus : String) : FocusTable :=
  assocInsert user_id focus tbl

/-! ### Persisted state of the orchestrator (interactions and LLM logs) -/

/-- A chat message as sent to the model backend. -/
structure Msg where
  role : String
  content : String

/-- A row of the `interactions` table (interactions_store.py lines 11-19).
Creation time is modelled by list position, which matches insertion
order. -/
structure InteractionRow where
  id : Nat
  conversation_id : String
  role : String
  content : String
  metadata : List (String × PyVal)

/-- A row of the `llm_logs` table as inserted by `LLMLogStore.log_request`
(llm_log_store.py lines 67-78); the provider-specific token metadata is
opaque here and omitted. -/
structure LLMLogRow where
  id : Nat
  conversation_id : Option String
  iteration : Nat
  provider : String
  model : String
  system_prompt : String
  messages : List Msg
  response : String
  error : Option String
  original_user_message : Option String

/-- The mutable database state the orchestrator writes, plus a counter of
model-backend invocations. -/
structure StoreState where
  interactions : List InteractionRow
  nextInteractionId : Nat
  llmLogs : List LLMLogRow
  nextLogId : Nat
  llmCalls : Nat

/-- `InteractionsStore.add_message` (interactions_store.py lines 33-67):
insert one row; `metadata or {}` supplies the default. -/
def addMessage (st : StoreState) (conversation_id role content : String)
    (metadata : Option (List (String × PyVal))) : StoreState :=
  let row : InteractionRow :=
    ⟨st.nextInteractionId, conversation_id, role, content, metadata.getD []⟩
  { st with interactions := st.interactions ++ [row],
            nextInteractionId := st.nextInteractionId + 1 }

/-- `InteractionsStore.get_conversation` (interactions_store.py lines
69-94): rows of the conversation ordered newest first, limited to 20, then
reversed back to chronological order. -/
def getConversation (st : StoreState) (conversation_id : String) : List InteractionRow :=
  (((st.interactions.filter (fun r => r.conversation_id = conversation_id)).reverse).take 20).reverse

/-- The declared parameter names of `LLMLogStore.log_request`
(llm_log_store.py lines 36-48); the method has no `**kwargs`. -/
def log_request_param_names : List String :=
  ["conversation_id", "iteration", "provider", "model", "system_prompt",
   "messages", "response", "response_metadata", "error", "original_user_message"]

/-- The keyword-argument names `Agent._call_llm` passes to `log_request`
(agent.py lines 160-172, 200-212 and 223-235 — all three call sites use the
same twelve names). -/
def call_llm_log_kwarg_names : List String :=
  ["conversation_id", "iteration", "provider", "model", "system_prompt",
   "messages", "response", "response_metadata", "error", "original_user_message",
   "current_task_brief", "tool_observations"]

/-- Python keyword binding for a def without `**kwargs`: every keyword must
name a declared parameter, otherwise the call raises TypeError before the
body runs. -/
def kwargsBindOk (params kwargs : List String) : Bool :=
  kwargs.all (fun k => params.contains k)

/-- One guarded attempt at `self.llm_log_store.log_request(...)` from
`Agent._call_llm`. When the keyword binding fails the TypeError is caught
by the surrounding try/except and `log_entry` stays `None` (agent.py lines
159-175, 199-215, 222-240); when it binds, `log_request` inserts the row
(llm_log_store.py lines 67-94). -/
def tryLogRequest (st : StoreState) (row : LLMLogRow) : Option LLMLogRow × StoreState :=
  if kwargsBindOk log_request_param_names call_llm_log_kwarg_names then
    let row' := { row with id := st.nextLogId }
    (some row', { st with llmLogs := st.llmLogs ++ [row'], nextLogId := st.nextLogId + 1 })
  else
    (none, st)

/-! ### The environment of external collaborators -/

/-- A tool observation collected during a run (agent.py lines 484-489). -/
structure ToolObs where
  iteration : Nat
  tool_name : String
  action_input : PyVal
  observation : String

/-- External collaborators of the orchestrator. `llm` is the model backend
(`complete(system_prompt, ordered_messages)`); `jsonLoads` is
`json.loads`; `buildSystemPrompt` renders the system-prompt template of
`PromptBuilder.build_system_prompt`, whose output is opaque prompt text
(it also reads the guidelines and facts stores); `getFocus`,
`getEmbedding`, `searchSimilar` and `getRecent` are the fallible reads
done by `Agent._get_memory_context`, the latter two returning the text
produced by `MemoryStore.format_memories_for_prompt` (timestamps make the
text itself opaque). Embedding vectors are opaque handles. -/
structure Env where
  llm : String → List Msg → Except String String
  jsonLoads : String → Option PyVal
  provider : String
  model : String
  buildSystemPrompt : String → Option String → Option String → Option String → String
  freshConversationId : String
  getFocus : String → Except String (Option String)
  getEmbedding : String → Except String Nat
  searchSimilar : String → Nat → Except String String
  getRecent : String → Except String String

/-- `Agent._get_memory_context` (agent.py lines 328-353): focus, embedding,
similar memories, recent memories; any raised error propagates to `run`,
which catches it. -/
def getMemoryContext (env : Env) (user_id task : String) :
    Except String (Option String × String × String × Nat) := do
  let current_focus ← env.getFocus user_id
  let embedding ← env.getEmbedding task
  let similar_text ← env.searchSimilar user_id embedding
  let recent_text ← env.getRecent user_id
  return (current_focus, recent_text, similar_text, embedding)

/-- Result of `Agent._call_llm`: the response text, the log entry (always
`None` in practice, see `tryLogRequest`) and the updated state. -/
structure CallResult where
  responseText : String
  logEntry : Option LLMLogRow
  store : StoreState

/-- Role normalisation inside `_call_llm` (agent.py lines 113-118). -/
def msgRoleFix (m : Msg) : Msg :=
  if m.role = "agent" then { m with role := "assistant" } else m

/-- The message list sent to the backend: normalised history plus the
current user message (agent.py lines 110-120). -/
def buildMessages (history : List Msg) (userMessage : String) : List Msg :=
  history.map msgRoleFix ++ [⟨"user", userMessage⟩]

/-- `Agent._call_llm` (agent.py lines 86-242). Both provider branches have
the same control flow: call the backend, then attempt to log; a backend
error is logged (best effort) and turned into an empty response text; the
logging attempt itself always fails to bind its keyword arguments (see
`tryLogRequest`). The `current_focus` and `tool_observations` arguments of
the Python function only feed the two unbindable keywords and are omitted
here. -/
def callLlm (env : Env) (st : StoreState) (systemPrompt userMessage : String)
    (history : List Msg) (conversationId : Option String) (iteration : Nat)
    (originalUserMessage : Option String) : CallResult :=
  let messages := buildMessages history userMessage
  let fullLog : List Msg := ⟨"system", systemPrompt⟩ :: messages
  let st1 := { st with llmCalls := st.llmCalls + 1 }
  match env.llm systemPrompt messages with
  | Except.error e =>
    let le := tryLogRequest st1
      ⟨0, conversationId, iteration, env.provider, env.model, systemPrompt, fullLog, "", some e, originalUserMessage⟩
    { responseText := "", logEntry := le.1, store := le.2 }
  | Except.ok text =>
    let le := tryLogRequest st1
      ⟨0, conversationId, iteration, env.provider, env.model, systemPrompt, fullLog, text, none, originalUserMessage⟩
    { responseText := text, logEntry := le.1, store := le.2 }

/-! ### The agent loop (Agent.run, agent.py lines 355-544) -/

/-- Fixed continuation prompt after a tool observation (agent.py line 510). -/
def continuation_prompt : String :=
  "The tool returned the above observation. Continue with your original task. Remember to include THOUGHT:, FOCUS:, and FINAL_ANSWER: when you have enough information."

/-- Fixed corrective prompt after a bare thought (agent.py line 517). -/
def corrective_prompt : String :=
  "You need to either:\n1. Use a tool (respond with THOUGHT:, FOCUS:, ACTION:, and ACTION_INPUT:)\n2. Provide a final answer (respond with THOUGHT:, FOCUS:, and FINAL_ANSWER:)\n\nPlease choose one and respond in the correct format."

/-- An ASCII apostrophe, kept out of string literals. -/
def aposS : String := String.mk [Char.ofNat 39]

/-- The fixed fallback message on iteration exhaustion (agent.py line 521). -/
def fallback_response : String :=
  "I apologize, but I" ++ aposS ++ "m having trouble processing that request. Could you please rephrase it or provide more specific details?"

/-- The approval framing around a draft (agent.py line 457). -/
def draft_wrapped (content : String) : String :=
  "**Draft for your approval:**\n\n" ++ content ++ "\n\n*Please review and let me know if you"
    ++ aposS ++ "d like any changes, or say " ++ aposS ++ "send it" ++ aposS ++ " to proceed.*"

/-- Lines 438-440: `if response.focus: extracted_focus = response.focus`
(Python truthiness: an empty string does not update). -/
def updateExtractedFocus (old respFocus : Option String) : Option String :=
  match respFocus with
  | some f => if f = "" then old else some f
  | none => old

/-- In-loop mutable state of `Agent.run` (agent.py lines 415-420). -/
structure LoopState where
  history : List Msg
  currentPrompt : String
  extractedFocus : Option String
  collectedObs : List ToolObs
  store : StoreState

/-- The iteration loop of `Agent.run` (agent.py lines 422-517), by
recursion on the remaining iteration budget; `i` is the Python loop index.
Returns `final_response` (`none` when the budget is exhausted without a
terminal state) and the loop state. -/
def agentLoop (env : Env) (reg : ToolRegistry) (systemPrompt originalUserTask task cid : String) :
    Nat → Nat → LoopState → Option String × LoopState
  | _, 0, ls => (none, ls)
  | i, rem + 1, ls =>
    let c := callLlm env ls.store systemPrompt ls.currentPrompt ls.history (some cid) i (some task)
    let resp := parse_response env.jsonLoads c.responseText
    let ef := updateExtractedFocus ls.extractedFocus resp.focus
    if resp.type = "final_answer" then
      let st2 := addMessage c.store cid "agent" resp.content
        (some [("type", PyVal.str "final_answer")])
      (some resp.content, { ls with store := st2, extractedFocus := ef })
    else if resp.type = "draft_for_approval" then
      let st2 := addMessage c.store cid "agent" resp.content
        (some [("type", PyVal.str "draft"), ("needs_approval", PyVal.bool true)])
      (some (draft_wrapped resp.content), { ls with store := st2, extractedFocus := ef })
    else if resp.type = "action" then
      let nm := resp.action_name.getD ""
      let inp := resp.action_input.getD (PyVal.dict [])
      let observation :=
        match ToolRegistry.execute reg nm inp with
        | Except.ok r => "OBSERVATION: " ++ r
        | Except.error e => "OBSERVATION: Error executing " ++ nm ++ ": " ++ e
      let st2 := addMessage c.store cid "agent" c.responseText
        (some [("type", PyVal.str "action"), ("tool_name", PyVal.str nm), ("action_input", inp)])
      let st3 := addMessage st2 cid "tool" observation (some [("tool_name", PyVal.str nm)])
      let collected := ls.collectedObs ++ [⟨i, nm, inp, observation⟩]
      -- Lines 493-500: with a log entry present the code would read
      -- log_entry.tool_observations and call update_tool_observations, neither of
      -- which exists (AttributeError, swallowed by the inner try/except); log
      -- entries are in fact always None here, so the state is unchanged either way.
      let st4 := match c.logEntry with
        | some _ => st3
        | none => st3
      let hist1 := if i = 0 then ls.history ++ [⟨"user", originalUserTask⟩] else ls.history
      let hist2 := hist1 ++ [⟨"assistant", c.responseText⟩, ⟨"user", observation⟩]
      agentLoop env reg systemPrompt originalUserTask task cid (i + 1) rem
        { history := hist2, currentPrompt := continuation_prompt, extractedFocus := ef,
          collectedObs := collected, store := st4 }
    else
      let hist1 := if i = 0 then ls.history ++ [⟨"user", originalUserTask⟩] else ls.history
      let hist2 := hist1 ++ [⟨"assistant", c.responseText⟩]
      agentLoop env reg systemPrompt originalUserTask task cid (i + 1) rem
        { ls with history := hist2, currentPrompt := corrective_prompt,
                  extractedFocus := ef, store := c.store }

/-- Role translation when replaying persisted turns (agent.py lines 380-388):
agent turns become assistant messages, tool observations are replayed as
user messages. -/
def runRoleConv (r : String) : String :=
  if r = "agent" then "assistant" else if r = "tool" then "user" else r

/-- `PromptBuilder.build_task_prompt` (prompt_builder.py lines 246-262). -/
def build_task_prompt (task context : String) : String :=
  if context = "" then task else task ++ "\n\n## Context\n\n" ++ context

/-- The AttributeError raised at agent.py line 374. -/
def set_current_user_id_attr_error : String :=
  "AttributeError: " ++ aposS ++ "ToolRegistry" ++ aposS ++ " object has no attribute "
    ++ aposS ++ "set_current_user_id" ++ aposS

/-- Python truthiness of an optional string (`if user_id:`). -/
def pyTruthyOptStr : Option String → Bool
  | some s => !(s = "")
  | none => false

/-- `Agent.run` (agent.py lines 355-544). A raised, uncaught exception is
an `Except.error`; a normal return is `Except.ok (final_response, state)`.
With a truthy `user_id` the call `self.tool_registry.set_current_user_id(user_id)`
at line 374 raises AttributeError (the method does not exist on
`ToolRegistry` in src/agent/tools.py) outside any try/except, so the
memory-context block (lines 394-403) and the memory write-back block
(lines 527-542), both guarded by the same truthiness test, are never
reached with a truthy `user_id` and are skipped for a falsy one. -/
def agentRun (env : Env) (reg : ToolRegistry) (task : String) (conversationId : Option String)
    (userId : Option String) (maxIterations : Nat) (st0 : StoreState) :
    Except String (String × StoreState) :=
  let cid := match conversationId with
    | some c => c
    | none => env.freshConversationId
  if pyTruthyOptStr userId then
    Except.error set_current_user_id_attr_error
  else
    let prev := getConversation st0 cid
    let history := prev.map (fun r => (⟨runRoleConv r.role, r.content⟩ : Msg))
    let st1 := addMessage st0 cid "user" task none
    let systemPrompt := env.buildSystemPrompt (ToolRegistry.get_descriptions reg) none none none
    let taskPrompt := build_task_prompt task ""
    let r := agentLoop env reg systemPrompt taskPrompt task cid 0 maxIterations
      { history := history, currentPrompt := taskPrompt, extractedFocus := none,
        collectedObs := [], store := st1 }
    match r.1 with
    | some finalResponse => Except.ok (finalResponse, r.2.store)
    | none =>
      let st2 := addMessage r.2.store cid "agent" fallback_response
        (some [("type", PyVal.str "max_iterations_reached")])
      Except.ok (fallback_response, st2)

/-! ### Derived text helpers and concrete fixtures -/

/-- The text after the first occurrence of `lit` in `s` (meaningful when
`lit` occurs in `s`; otherwise `s` itself is returned as a default). -/
def textAfterFirst (lit : List Char) (s : String) : String :=
  String.mk ((splitAfterFirst lit s.data).getD s.data)

/-- A `json.loads` oracle that fails on every input. -/
def sampleJson : String → Option PyVal := fun _ => none

/-- A tool whose handler always raises. -/
def sampleTool : Tool :=
  { name := "boom", description := "always fails",
    func := fun _ => Except.error "kaboom", parameters := PyVal.dict [] }

/-- A tool whose handler always succeeds. -/
def sampleOkTool : Tool :=
  { name := "echo", description := "echoes",
    func := fun _ => Except.ok "done", parameters := PyVal.dict [] }

/-- A registry holding the two sample tools. -/
def sampleReg : ToolRegistry :=
  ToolRegistry.register (ToolRegistry.register { tools := [] } sampleTool) sampleOkTool

/-- The empty persisted state. -/
def sampleStore : StoreState :=
  { interactions := [], nextInteractionId := 0, llmLogs := [], nextLogId := 0, llmCalls := 0 }

/-- A model stub that always answers with a bare thought. -/
def sampleThoughtStub : String → List Msg → String := fun _ _ => "THOUGHT: hmm"

/-- An environment whose model backend is the bare-thought stub. -/
def sampleThoughtEnv : Env :=
  { llm := fun sys msgs => Except.ok (sampleThoughtStub sys msgs),
    jsonLoads := sampleJson, provider := "openai", model := "gpt-4o",
    buildSystemPrompt := fun t _ _ _ => t, freshConversationId := "cid-0",
    getFocus := fun _ => Except.ok none,
    getEmbedding := fun _ => Except.error "embedding failure",
    searchSimilar := fun _ _ => Except.ok "", getRecent := fun _ => Except.ok "" }

/-- An environment whose model backend always requests the failing tool. -/
def sampleActionEnv : Env :=
  { sampleThoughtEnv with
    llm := fun _ _ => Except.ok "ACTION: boom\nACTION_INPUT: notjson" }

/-- The state produced by a one-iteration thought-only run used by the
run-level witnesses. -/
def sampleRunState : StoreState :=
  { interactions := [⟨0, "c1", "user", "hi", []⟩,
      ⟨1, "c1", "agent", fallback_response, [("type", PyVal.str "max_iterations_reached")]⟩],
    nextInteractionId := 2, llmLogs := [], nextLogId := 0, llmCalls := 1 }

/-! ### Lemmas: whitespace, literals and scanning

The parser strips its input before matching. The lemmas below relate
scanning the raw text to scanning the stripped text: the marker literals
contain no whitespace, so stripping can neither create nor destroy an
occurrence, and it leaves the extracted segments unchanged up to
whitespace that the parser strips anyway.
-/

theorem pyIsSpace_not_word {c : Char} (h : pyIsSpace c = true) : pyIsWordChar c = false := by
  simp only [pyIsSpace, Bool.or_eq_true, decide_eq_true_eq] at h
  rcases h with ((((h | h) | h) | h) | h) | h <;> subst h <;> decide

theorem startsWith_nil_false {lit : List Char} (hne : lit ≠ []) :
    startsWithList lit [] = false := by
  cases lit with
  | nil => exact absurd rfl hne
  | cons a as => rfl

theorem startsWith_head_ne {lit : List Char} {c : Char} {cs : List Char}
    (hne : lit ≠ []) (hnw : ∀ x ∈ lit, pyIsSpace x = false) (hc : pyIsSpace c = true) :
    startsWithList lit (c :: cs) = false := by
  cases lit with
  | nil => exact absurd rfl hne
  | cons a as =>
    have ha : pyIsSpace a = false := hnw a (by simp)
    have hac : ¬ a = c := by
      intro h
      rw [h, hc] at ha
      cases ha
    simp [startsWithList, hac]

theorem startsWith_length_le : ∀ {lit l : List Char},
    startsWithList lit l = true → lit.length ≤ l.length := by
  intro lit
  induction lit with
  | nil => intro l _; simp
  | cons a as ih =>
    intro l h
    cases l with
    | nil => simp [startsWithList] at h
    | cons b bs =>
      simp only [startsWithList, Bool.and_eq_true] at h
      simpa using ih h.2

theorem startsWith_append_left : ∀ {lit l : List Char} (t : List Char),
    startsWithList lit l = true → startsWithList lit (l ++ t) = true := by
  intro lit
  induction lit with
  | nil => intro l t _; rfl
  | cons a as ih =>
    intro l t h
    cases l with
    | nil => simp [startsWithList] at h
    | cons b bs =>
      simp only [startsWithList, Bool.and_eq_true] at h
      simpa [startsWithList, h.1] using ih t h.2

theorem startsWith_append_ws_false : ∀ {u lit trail : List Char},
    (∀ x ∈ lit, pyIsSpace x = false) → (∀ x ∈ trail, pyIsSpace x = true) →
    startsWithList lit u = false → startsWithList lit (u ++ trail) = false := by
  intro u
  induction u with
  | nil =>
    intro lit trail hnw htr h
    cases lit with
    | nil => simp [startsWithList] at h
    | cons a as =>
      cases trail with
      | nil => rfl
      | cons c cs =>
        exact startsWith_head_ne (by simp) hnw (htr c (by simp))
  | cons b us ih =>
    intro lit trail hnw htr h
    cases lit with
    | nil => simp [startsWithList] at h
    | cons a as =>
      simp only [startsWithList, List.cons_append] at h ⊢
      cases hd : (decide (a = b)) with
      | false => simp [hd]
      | true =>
        rw [hd, Bool.true_and] at h
        rw [Bool.true_and]
        exact ih (fun x hx => hnw x (by simp [hx])) htr h

theorem scanFirst_cons (mAt : List Char → Option α) (c : Char) (cs : List Char) :
    scanFirst mAt (c :: cs) =
      match mAt (c :: cs) with
      | some r => some r
      | none => scanFirst mAt cs := rfl

theorem scanFirst_all_ws_none (mAt : List Char → Option α)
    (hnil : mAt [] = none)
    (hws : ∀ c cs, pyIsSpace c = true → mAt (c :: cs) = none) :
    ∀ {t : List Char}, (∀ c ∈ t, pyIsSpace c = true) → scanFirst mAt t = none := by
  intro t
  induction t with
  | nil => intro _; simpa [scanFirst] using hnil
  | cons c cs ih =>
    intro h
    rw [scanFirst_cons, hws c cs (h c (by simp))]
    exact ih (fun x hx => h x (by simp [hx]))

theorem scanFirst_ws_prepend (mAt : List Char → Option α)
    (hws : ∀ c cs, pyIsSpace c = true → mAt (c :: cs) = none) :
    ∀ (lead x : List Char), (∀ c ∈ lead, pyIsSpace c = true) →
      scanFirst mAt (lead ++ x) = scanFirst mAt x := by
  intro lead
  induction lead with
  | nil => intro x _; rfl
  | cons c cs ih =>
    intro x h
    rw [List.cons_append, scanFirst_cons, hws c (cs ++ x) (h c (by simp))]
    exact ih x (fun y hy => h y (by simp [hy]))

theorem scanFirst_ws_append (mAt : List Char → Option α) (fix : α → α) (trail : List Char)
    (htr : ∀ c ∈ trail, pyIsSpace c = true)
    (hnil : mAt [] = none)
    (hws : ∀ c cs, pyIsSpace c = true → mAt (c :: cs) = none)
    (happ : ∀ u, mAt (u ++ trail) = (mAt u).map fix) :
    ∀ m, scanFirst mAt (m ++ trail) = (scanFirst mAt m).map fix := by
  intro m
  induction m with
  | nil =>
    rw [List.nil_append, scanFirst_all_ws_none mAt hnil hws htr]
    rw [show scanFirst mAt [] = mAt [] from rfl, hnil]
    rfl
  | cons c cs ih =>
    have h1 := happ (c :: cs)
    rw [List.cons_append] at h1
    rw [List.cons_append, scanFirst_cons mAt c (cs ++ trail), h1,
        scanFirst_cons mAt c cs]
    cases hm : mAt (c :: cs) with
    | some a => rfl
    | none => simpa using ih

theorem litSplitAt_nil {lit : List Char} (hne : lit ≠ []) : litSplitAt lit [] = none := by
  simp [litSplitAt, startsWith_nil_false hne]

theorem litSplitAt_ws {lit : List Char} (hne : lit ≠ []) (hnw : ∀ x ∈ lit, pyIsSpace x = false)
    {c : Char} {cs : List Char} (hc : pyIsSpace c = true) : litSplitAt lit (c :: cs) = none := by
  simp [litSplitAt, startsWith_head_ne hne hnw hc]

theorem litSplitAt_append_ws {lit trail : List Char} (hnw : ∀ x ∈ lit, pyIsSpace x = false)
    (htr : ∀ x ∈ trail, pyIsSpace x = true) (u : List Char) :
    litSplitAt lit (u ++ trail) = (litSplitAt lit u).map (fun r => r ++ trail) := by
  cases h : startsWithList lit u with
  | true =>
    have h2 := startsWith_append_left trail h
    have hlen := startsWith_length_le h
    simp [litSplitAt, h, h2, List.drop_append_of_le_length hlen]
  | false =>
    have h2 := startsWith_append_ws_false hnw htr h
    simp [litSplitAt, h, h2]

theorem rdropWhile_append_rtakeWhile (p : α → Bool) (l : List α) :
    List.rdropWhile p l ++ List.rtakeWhile p l = l := by
  rw [List.rdropWhile, List.rtakeWhile, ← List.reverse_append, List.takeWhile_append_dropWhile,
    List.reverse_reverse]

theorem stripList_decomp (l : List Char) :
    l = l.takeWhile pyIsSpace
        ++ (stripList l ++ List.rtakeWhile pyIsSpace (l.dropWhile pyIsSpace)) := by
  rw [stripList, rdropWhile_append_rtakeWhile, List.takeWhile_append_dropWhile]

theorem splitAfterFirst_strip_rel {lit : List Char} (hne : lit ≠ [])
    (hnw : ∀ x ∈ lit, pyIsSpace x = false) (l : List Char) :
    splitAfterFirst lit l
      = (splitAfterFirst lit (stripList l)).map
          (fun r => r ++ List.rtakeWhile pyIsSpace (l.dropWhile pyIsSpace)) := by
  have hlead : ∀ c ∈ l.takeWhile pyIsSpace, pyIsSpace c = true :=
    fun c hc => List.mem_takeWhile_imp hc
  have htr : ∀ c ∈ List.rtakeWhile pyIsSpace (l.dropWhile pyIsSpace), pyIsSpace c = true :=
    fun c hc => List.mem_rtakeWhile_imp hc
  have hws : ∀ c cs, pyIsSpace c = true → litSplitAt lit (c :: cs) = none :=
    fun c cs hc => litSplitAt_ws hne hnw hc
  conv_lhs => rw [stripList_decomp l]
  unfold splitAfterFirst
  rw [scanFirst_ws_prepend _ hws _ _ hlead]
  exact scanFirst_ws_append _ _ _ htr (litSplitAt_nil hne) hws
    (litSplitAt_append_ws hnw htr) (stripList l)

theorem containsLit_stripList {lit : List Char} (hne : lit ≠ [])
    (hnw : ∀ x ∈ lit, pyIsSpace x = false) (l : List Char) :
    containsLit lit (stripList l) = containsLit lit l := by
  unfold containsLit
  rw [splitAfterFirst_strip_rel hne hnw l]
  cases splitAfterFirst lit (stripList l) <;> rfl

theorem dropWhile_eq_nil_of_all {p : α → Bool} {t : List α} (h : ∀ x ∈ t, p x = true) :
    List.dropWhile p t = [] := by
  induction t with
  | nil => rfl
  | cons c cs ih =>
    rw [List.dropWhile_cons, if_pos (h c (by simp))]
    exact ih fun x hx => h x (by simp [hx])

theorem rdropWhile_append_ws {p : α → Bool} {t : List α} (htr : ∀ x ∈ t, p x = true)
    (x : List α) : List.rdropWhile p (x ++ t) = List.rdropWhile p x := by
  rw [List.rdropWhile, List.rdropWhile, List.reverse_append,
      List.dropWhile_append_of_pos (fun a ha => htr a (List.mem_reverse.mp ha))]

theorem stripList_append_ws {t : List Char} (htr : ∀ x ∈ t, pyIsSpace x = true)
    (r : List Char) : stripList (r ++ t) = stripList r := by
  unfold stripList
  rw [List.dropWhile_append]
  by_cases hd : (List.dropWhile pyIsSpace r).isEmpty = true
  · rw [if_pos hd, dropWhile_eq_nil_of_all htr]
    have hd2 : List.dropWhile pyIsSpace r = [] := by simpa using hd
    rw [hd2]
  · rw [if_neg hd, rdropWhile_append_ws htr]

theorem actionLit_ne_nil : actionLit ≠ [] := by decide

theorem actionLit_nonws : ∀ x ∈ actionLit, pyIsSpace x = false := by decide

theorem finalAnswerLit_ne_nil : finalAnswerLit ≠ [] := by decide

theorem finalAnswerLit_nonws : ∀ x ∈ finalAnswerLit, pyIsSpace x = false := by decide

theorem draftLit_ne_nil : draftLit ≠ [] := by decide

theorem draftLit_nonws : ∀ x ∈ draftLit, pyIsSpace x = false := by decide

theorem actionNameAt_nil : actionNameAt [] = none := by
  simp [actionNameAt, startsWith_nil_false actionLit_ne_nil]

theorem actionNameAt_ws {c : Char} {cs : List Char} (hc : pyIsSpace c = true) :
    actionNameAt (c :: cs) = none := by
  simp [actionNameAt, startsWith_head_ne actionLit_ne_nil actionLit_nonws hc]

theorem takeWhile_word_ws_nil {t : List Char} (htr : ∀ x ∈ t, pyIsSpace x = true) :
    List.takeWhile pyIsWordChar t = [] := by
  cases t with
  | nil => rfl
  | cons c cs => simp [List.takeWhile_cons, pyIsSpace_not_word (htr c (by simp))]

theorem actionNameAt_append_ws {trail : List Char} (htr : ∀ x ∈ trail, pyIsSpace x = true)
    (u : List Char) : actionNameAt (u ++ trail) = (actionNameAt u).map id := by
  cases h : startsWithList actionLit u with
  | false =>
    have h2 := startsWith_append_ws_false actionLit_nonws htr h
    simp [actionNameAt, h, h2]
  | true =>
    have h2 := startsWith_append_left trail h
    have hlen := startsWith_length_le h
    have hdrop : (u ++ trail).drop actionLit.length = u.drop actionLit.length ++ trail :=
      List.drop_append_of_le_length hlen
    simp only [actionNameAt, h, h2, if_true, hdrop]
    rw [List.dropWhile_append]
    by_cases hd : ((u.drop actionLit.length).dropWhile pyIsSpace).isEmpty = true
    · rw [if_pos hd, dropWhile_eq_nil_of_all htr]
      have hd2 : (u.drop actionLit.length).dropWhile pyIsSpace = [] := by simpa using hd
      simp [hd2]
    · rw [if_neg hd, List.takeWhile_append]
      by_cases hfull :
          (List.takeWhile pyIsWordChar ((u.drop actionLit.length).dropWhile pyIsSpace)).length
            = ((u.drop actionLit.length).dropWhile pyIsSpace).length
      · rw [if_pos hfull, takeWhile_word_ws_nil htr, List.append_nil]
        have heq := (List.takeWhile_prefix pyIsWordChar).eq_of_length hfull
        rw [heq]
        by_cases hz : ((u.drop actionLit.length).dropWhile pyIsSpace).isEmpty = true
          <;> simp [hz]
      · rw [if_neg hfull]
        by_cases hz :
            (List.takeWhile pyIsWordChar ((u.drop actionLit.length).dropWhile pyIsSpace)).isEmpty = true
          <;> simp [hz]

theorem actionNameSearch_stripList (l : List Char) :
    actionNameSearch (stripList l) = actionNameSearch l := by
  have hlead : ∀ c ∈ l.takeWhile pyIsSpace, pyIsSpace c = true :=
    fun c hc => List.mem_takeWhile_imp hc
  have htr : ∀ c ∈ List.rtakeWhile pyIsSpace (l.dropWhile pyIsSpace), pyIsSpace c = true :=
    fun c hc => List.mem_rtakeWhile_imp hc
  have hws : ∀ c cs, pyIsSpace c = true → actionNameAt (c :: cs) = none :=
    fun c cs hc => actionNameAt_ws hc
  conv_rhs => rw [stripList_decomp l]
  unfold actionNameSearch
  rw [scanFirst_ws_prepend _ hws _ _ hlead,
      scanFirst_ws_append _ id _ htr actionNameAt_nil hws (actionNameAt_append_ws htr)]
  cases scanFirst actionNameAt (stripList l) <;> rfl

theorem scanFirst_isSome_mono {mAt : List Char → Option α} {nAt : List Char → Option β}
    (h : ∀ t, (mAt t).isSome = true → (nAt t).isSome = true) :
    ∀ l, (scanFirst mAt l).isSome = true → (scanFirst nAt l).isSome = true := by
  intro l
  induction l with
  | nil => intro hs; exact h [] hs
  | cons c cs ih =>
    intro hs
    rw [scanFirst_cons] at hs
    rw [scanFirst_cons]
    cases hm : mAt (c :: cs) with
    | some a =>
      have h2 := h (c :: cs) (by simp [hm])
      cases hn : nAt (c :: cs) with
      | some b => simp
      | none => rw [hn] at h2; simp at h2
    | none =>
      rw [hm] at hs
      have h2 := ih hs
      cases hn : nAt (c :: cs) with
      | some b => simp
      | none => simpa using h2

theorem actionNameSearch_some_contains {l nm : List Char}
    (h : actionNameSearch l = some nm) : containsLit actionLit l = true := by
  have hstep : ∀ t, (actionNameAt t).isSome = true → (litSplitAt actionLit t).isSome = true := by
    intro t ht
    by_cases hs : startsWithList actionLit t = true
    · simp [litSplitAt, hs]
    · unfold actionNameAt at ht
      simp [hs] at ht
  have hsome : (scanFirst actionNameAt l).isSome = true := by
    unfold actionNameSearch at h
    simp [h]
  exact scanFirst_isSome_mono hstep l hsome

theorem pyStrip_data (s : String) : (pyStrip s).data = stripList s.data := rfl

theorem containsLit_false_split_none {lit l : List Char} (h : containsLit lit l = false) :
    splitAfterFirst lit l = none := by
  unfold containsLit at h
  cases hs : splitAfterFirst lit l with
  | none => rfl
  | some r => rw [hs] at h; simp at h

/-- The focus attached to a parse result is always exactly the focus
extracted from the stripped input, whatever the classification is
(agent.py lines 265-326: every constructed `AgentResponse` carries the
`focus` computed up front). -/
theorem parse_response_focus (jl : String → Option PyVal) (s : String) :
    (parse_response jl s).focus = extract_focus (pyStrip s) := by
  simp only [parse_response]
  repeat' split
  all_goals rfl

/-- An extracted focus never ends in a period: `_extract_focus` strips
trailing periods before returning (agent.py line 259). -/
theorem extract_focus_no_trailing_dot {s f : String} (h : extract_focus s = some f) :
    f.data.getLast? ≠ some ('.' : Char) := by
  simp only [extract_focus] at h
  cases hfs : focusSearch s.data with
  | none => rw [hfs] at h; cases h
  | some g =>
    rw [hfs] at h
    have h2 : (if (rstripDots (stripList g)).isEmpty = true then none
        else some (⟨rstripDots (stripList g)⟩ : String)) = some f := h
    by_cases hz : (rstripDots (stripList g)).isEmpty = true
    · rw [if_pos hz] at h2; cases h2
    · rw [if_neg hz] at h2
      have hfd : f.data = rstripDots (stripList g) := by
        cases h2; rfl
      have hne : rstripDots (stripList g) ≠ [] := by
        intro hx
        rw [hx] at hz
        exact hz rfl
      intro hcontra
      rw [hfd] at hcontra
      have hlast := List.rdropWhile_last_not (fun c => c = '.') (stripList g) (by
        unfold rstripDots at hne
        exact hne)
      rw [List.getLast?_eq_getLast _ (by unfold rstripDots at hne ⊢; exact hne)] at hcontra
      have heq : (List.rdropWhile (fun c => decide (c = '.')) (stripList g)).getLast hne = '.' :=
        Option.some.inj hcontra
      exact hlast (by simp [heq])

theorem containsLit_true_split_some {lit l : List Char} (h : containsLit lit l = true) :
    ∃ r, splitAfterFirst lit l = some r := by
  unfold containsLit at h
  cases hs : splitAfterFirst lit l with
  | none => rw [hs] at h; simp at h
  | some r => exact ⟨r, rfl⟩

/-- C4: for every input string containing the marker `FINAL_ANSWER:`,
`Agent._parse_response` returns an `AgentResponse` of type `final_answer`
whose content is exactly the text after the first occurrence of the marker,
trimmed of surrounding whitespace — hence it excludes the marker itself and
any `THOUGHT:`/`FOCUS:` text preceding the marker (agent.py lines 271-277). -/
theorem c4_final_answer_content (jl : String → Option PyVal) (s : String)
    (h : containsLit finalAnswerLit s.data = true) :
    (parse_response jl s).type = "final_answer" ∧
    (parse_response jl s).content = pyStrip (textAfterFirst finalAnswerLit s) := by
  have h1 : containsLit finalAnswerLit (stripList s.data) = true := by
    rw [containsLit_stripList finalAnswerLit_ne_nil finalAnswerLit_nonws]
    exact h
  obtain ⟨r, hr⟩ := containsLit_true_split_some h1
  have hraw := splitAfterFirst_strip_rel finalAnswerLit_ne_nil finalAnswerLit_nonws s.data
  rw [hr] at hraw
  have htr : ∀ c ∈ List.rtakeWhile pyIsSpace (s.data.dropWhile pyIsSpace), pyIsSpace c = true :=
    fun c hc => List.mem_rtakeWhile_imp hc
  constructor
  · simp only [parse_response, pyStrip_data]
    rw [hr]
  · simp only [parse_response, pyStrip_data]
    rw [hr]
    show String.mk (stripList r) = pyStrip (textAfterFirst finalAnswerLit s)
    unfold textAfterFirst
    rw [hraw]
    show String.mk (stripList r)
        = String.mk (stripList (r ++ List.rtakeWhile pyIsSpace (s.data.dropWhile pyIsSpace)))
    rw [stripList_append_ws htr]

/-- Witness for C4 at a concrete input. -/
theorem c4_final_answer_content_witness :
    containsLit finalAnswerLit "THOUGHT: t\nFINAL_ANSWER: Done now. ".data = true ∧
    (parse_response sampleJson "THOUGHT: t\nFINAL_ANSWER: Done now. ").type = "final_answer" ∧
    (parse_response sampleJson "THOUGHT: t\nFINAL_ANSWER: Done now. ").content
      = pyStrip (textAfterFirst finalAnswerLit "THOUGHT: t\nFINAL_ANSWER: Done now. ") := by
  refine ⟨rfl, ?_, ?_⟩
  · exact (c4_final_answer_content sampleJson "THOUGHT: t\nFINAL_ANSWER: Done now. " rfl).1
  · exact (c4_final_answer_content sampleJson "THOUGHT: t\nFINAL_ANSWER: Done now. " rfl).2

/-- C5: for every input containing `ACTION:` followed by an identifier token
and an `ACTION_INPUT:` segment whose stripped text the JSON decoder rejects
(and no `FINAL_ANSWER:`/`DRAFT_FOR_APPROVAL:` marker), `_parse_response`
does not raise (it is total here by construction: the `json.JSONDecodeError`
branch is the `none` case of the decoder oracle) and returns an `action`
whose input is the single fallback field `raw_input` holding the raw
segment text (agent.py lines 288-319). -/
theorem c5_action_input_fallback (jl : String → Option PyVal) (s : String) (nm g : List Char)
    (hf : containsLit finalAnswerLit s.data = false)
    (hd : containsLit draftLit s.data = false)
    (hn : actionNameSearch (pyStrip s).data = some nm)
    (hi : actionInputSearch (pyStrip s).data = some g)
    (hj : jl (pyStrip (String.mk g)) = none) :
    (parse_response jl s).type = "action" ∧
    (parse_response jl s).action_name = some (String.mk nm) ∧
    (parse_response jl s).action_input
      = some (PyVal.dict [("raw_input", PyVal.str (pyStrip (String.mk g)))]) := by
  have hfS : splitAfterFirst finalAnswerLit (stripList s.data) = none :=
    containsLit_false_split_none (by
      rw [containsLit_stripList finalAnswerLit_ne_nil finalAnswerLit_nonws]; exact hf)
  have hdS : splitAfterFirst draftLit (stripList s.data) = none :=
    containsLit_false_split_none (by
      rw [containsLit_stripList draftLit_ne_nil draftLit_nonws]; exact hd)
  have hn2 : actionNameSearch (stripList s.data) = some nm := hn
  have hi2 : actionInputSearch (stripList s.data) = some g := hi
  have haS : containsLit actionLit (stripList s.data) = true :=
    actionNameSearch_some_contains hn2
  have hj2 : jl (String.mk (stripList g)) = none := hj
  refine ⟨?_, ?_, ?_⟩ <;>
    (simp only [parse_response, pyStrip_data, hfS, hdS, haS, hn2, hi2, hj2, if_true]
     try rfl)

/-- Witness for C5 at a concrete input. -/
theorem c5_action_input_fallback_witness :
    (parse_response sampleJson "ACTION: boom\nACTION_INPUT: notjson").type = "action" ∧
    (parse_response sampleJson "ACTION: boom\nACTION_INPUT: notjson").action_name
      = some (String.mk "boom".data) ∧
    (parse_response sampleJson "ACTION: boom\nACTION_INPUT: notjson").action_input
      = some (PyVal.dict [("raw_input", PyVal.str (pyStrip (String.mk "notjson".data)))]) := by
  exact c5_action_input_fallback sampleJson "ACTION: boom\nACTION_INPUT: notjson"
    "boom".data "notjson".data rfl rfl rfl rfl rfl

/-- C10: for every input that contains `ACTION:` but where no identifier
token (word characters after optional whitespace) follows any occurrence of
the marker, and that contains no `FINAL_ANSWER:`/`DRAFT_FOR_APPROVAL:`
marker, `_parse_response` returns a `thought` whose content is the whole
stripped input with the extracted focus attached; it does not return an
`action` and does not raise (agent.py lines 298-300). -/
theorem c10_action_without_name_degrades (jl : String → Option PyVal) (s : String)
    (ha : containsLit actionLit s.data = true)
    (hn : actionNameSearch s.data = none)
    (hf : containsLit finalAnswerLit s.data = false)
    (hd : containsLit draftLit s.data = false) :
    parse_response jl s =
      { type := "thought", content := pyStrip s, action_name := none,
        action_input := none, focus := extract_focus (pyStrip s) } := by
  have hfS : splitAfterFirst finalAnswerLit (stripList s.data) = none :=
    containsLit_false_split_none (by
      rw [containsLit_stripList finalAnswerLit_ne_nil finalAnswerLit_nonws]; exact hf)
  have hdS : splitAfterFirst draftLit (stripList s.data) = none :=
    containsLit_false_split_none (by
      rw [containsLit_stripList draftLit_ne_nil draftLit_nonws]; exact hd)
  have haS : containsLit actionLit (stripList s.data) = true := by
    rw [containsLit_stripList actionLit_ne_nil actionLit_nonws]
    exact ha
  have hnS : actionNameSearch (stripList s.data) = none := by
    rw [actionNameSearch_stripList]
    exact hn
  simp only [parse_response, pyStrip_data, hfS, hdS, haS, hnS, if_true]

/-- Witness for C10 at a concrete input. -/
theorem c10_action_without_name_degrades_witness :
    parse_response sampleJson "ACTION: !!!" =
      { type := "thought", content := pyStrip "ACTION: !!!", action_name := none,
        action_input := none, focus := extract_focus (pyStrip "ACTION: !!!") } := by
  exact c10_action_without_name_degrades sampleJson "ACTION: !!!" rfl rfl rfl rfl

/-- C7 counterexample: the claim says trailing punctuation is stripped from
the extracted focus, but `_extract_focus` only strips trailing periods
(`focus.rstrip(".")`, agent.py line 259): parsing `"FOCUS: hi!"` attaches
the focus `"hi!"`, which still ends in the punctuation character `!`. -/
theorem c7_trailing_punctuation_kept :
    (parse_response sampleJson "FOCUS: hi!").focus = some "hi!" ∧
    "hi!".data.getLast? = some ('!' : Char) := ⟨rfl, rfl⟩

/-- C7 (amended): a `FOCUS:` marker is extracted independently of the
classification — every parse result carries exactly the focus extracted
from the stripped input, whatever its type — and trailing periods (the
punctuation `rstrip(".")` removes) are stripped from the extracted value,
which therefore never ends in a period. -/
theorem c7_focus_attached_periods_stripped (jl : String → Option PyVal) (s : String) :
    (parse_response jl s).focus = extract_focus (pyStrip s) ∧
    (∀ f : String, (parse_response jl s).focus = some f →
      f.data.getLast? ≠ some ('.' : Char)) := by
  refine ⟨parse_response_focus jl s, ?_⟩
  intro f hf
  rw [parse_response_focus jl s] at hf
  exact extract_focus_no_trailing_dot hf

/-- Witness for the amended C7 at a concrete input. -/
theorem c7_focus_attached_periods_stripped_witness :
    (parse_response sampleJson "FOCUS: stop now.").focus
      = extract_focus (pyStrip "FOCUS: stop now.") ∧
    "stop now".data.getLast? ≠ some ('.' : Char) := by
  have h := c7_focus_attached_periods_stripped sampleJson "FOCUS: stop now."
  exact ⟨h.1, h.2 "stop now" rfl⟩

theorem assocLookup_insert_self {α : Type} (tbl : List (String × α)) (k : String) (v : α) :
    assocLookup k (assocInsert k v tbl) = some v := by
  induction tbl with
  | nil => simp [assocInsert, assocLookup]
  | cons p rest ih =>
    obtain ⟨k0, v0⟩ := p
    by_cases hk : k0 = k
    · simp [assocInsert, assocLookup, hk]
    · simp [assocInsert, assocLookup, hk, ih]

theorem assocLookup_insert_other {α : Type} (tbl : List (String × α)) (k k2 : String) (v : α)
    (h : k2 ≠ k) : assocLookup k2 (assocInsert k v tbl) = assocLookup k2 tbl := by
  have hk2 : ¬ k = k2 := fun hx => h hx.symm
  induction tbl with
  | nil => simp [assocInsert, assocLookup, hk2]
  | cons p rest ih =>
    obtain ⟨k0, v0⟩ := p
    by_cases hk : k0 = k
    · subst hk
      simp [assocInsert, assocLookup, hk2]
    · simp [assocInsert, assocLookup, hk, ih]

/-- C8: the focus store is a per-user register: after
`FocusStore.set_focus(u, x)` an immediate `get_focus(u)` returns `x`, and
any other user keeps exactly the focus they had before the write
(focus_store.py lines 22-57: `get_focus` selects by `user_id`, `set_focus`
upserts on the `user_id` conflict key). -/
theorem c8_focus_register (tbl : FocusTable) (u v x : String) (huv : v ≠ u) :
    FocusStore.get_focus (FocusStore.set_focus tbl u x) u = some x ∧
    FocusStore.get_focus (FocusStore.set_focus tbl u x) v = FocusStore.get_focus tbl v := by
  unfold FocusStore.get_focus FocusStore.set_focus
  exact ⟨assocLookup_insert_self tbl u x, assocLookup_insert_other tbl u v x huv⟩

/-- Witness for C8 at a concrete table. -/
theorem c8_focus_register_witness :
    FocusStore.get_focus (FocusStore.set_focus [("bob", "old")] "alice" "X") "alice" = some "X" ∧
    FocusStore.get_focus (FocusStore.set_focus [("bob", "old")] "alice" "X") "bob"
      = FocusStore.get_focus [("bob", "old")] "bob" := by
  have h := c8_focus_register [("bob", "old")] "alice" "bob" "X" (by decide)
  exact ⟨h.1, h.2⟩

/-- C9: `ToolRegistry.execute` on a name absent from the tool table fails
with the unknown-tool error (the `ValueError("Unknown tool: ...")` the spec
calls `ToolNotFound`) without invoking any handler — the result is fixed
independently of every registered handler — and on a registered tool the
handler outcome, including a raised error, is propagated unchanged
(tools.py lines 52-57). -/
theorem c9_execute_dispatch (reg : ToolRegistry) (name : String) (kwargs : PyVal) :
    (ToolRegistry.get reg name = none →
      ToolRegistry.execute reg name kwargs = Except.error ("Unknown tool: " ++ name)) ∧
    (∀ t : Tool, ToolRegistry.get reg name = some t →
      ToolRegistry.execute reg name kwargs = t.func kwargs) := by
  constructor
  · intro h
    unfold ToolRegistry.execute
    rw [h]
  · intro t h
    unfold ToolRegistry.execute
    rw [h]

/-- Witness for C9 at a concrete registry. -/
theorem c9_execute_dispatch_witness :
    ToolRegistry.execute sampleReg "missing" (PyVal.dict [])
      = Except.error ("Unknown tool: " ++ "missing") ∧
    ToolRegistry.execute sampleReg "boom" (PyVal.dict [])
      = sampleTool.func (PyVal.dict []) := by
  exact ⟨(c9_execute_dispatch sampleReg "missing" (PyVal.dict [])).1 rfl,
    (c9_execute_dispatch sampleReg "boom" (PyVal.dict [])).2 sampleTool rfl⟩

/-- A response containing none of the three routing markers is classified
as a thought (agent.py lines 271, 280, 289, 321-326). -/
theorem parse_response_type_thought (jl : String → Option PyVal) (s : String)
    (hf : containsLit finalAnswerLit s.data = false)
    (hd : containsLit draftLit s.data = false)
    (ha : containsLit actionLit s.data = false) :
    (parse_response jl s).type = "thought" := by
  have hfS : splitAfterFirst finalAnswerLit (stripList s.data) = none :=
    containsLit_false_split_none (by
      rw [containsLit_stripList finalAnswerLit_ne_nil finalAnswerLit_nonws]; exact hf)
  have hdS : splitAfterFirst draftLit (stripList s.data) = none :=
    containsLit_false_split_none (by
      rw [containsLit_stripList draftLit_ne_nil draftLit_nonws]; exact hd)
  have haS : containsLit actionLit (stripList s.data) = false := by
    rw [containsLit_stripList actionLit_ne_nil actionLit_nonws]
    exact ha
  simp only [parse_response, pyStrip_data, hfS, hdS, haS, Bool.false_eq_true, if_false]
  cases hth : splitAfterFirst thoughtLit (stripList s.data) <;> simp [hth]

theorem kwargs_bind_fails :
    kwargsBindOk log_request_param_names call_llm_log_kwarg_names = false := by decide

theorem tryLogRequest_none (st : StoreState) (row : LLMLogRow) :
    tryLogRequest st row = (none, st) := by
  simp [tryLogRequest, kwargs_bind_fails]

theorem callLlm_logEntry (env : Env) (st : StoreState) (sp um : String) (hist : List Msg)
    (cid : Option String) (i : Nat) (o : Option String) :
    (callLlm env st sp um hist cid i o).logEntry = none := by
  simp only [callLlm]
  cases hllm : env.llm sp (buildMessages hist um) <;> simp [tryLogRequest_none]

theorem callLlm_store (env : Env) (st : StoreState) (sp um : String) (hist : List Msg)
    (cid : Option String) (i : Nat) (o : Option String) :
    (callLlm env st sp um hist cid i o).store = { st with llmCalls := st.llmCalls + 1 } := by
  simp only [callLlm]
  cases hllm : env.llm sp (buildMessages hist um) <;> simp [tryLogRequest_none]

theorem callLlm_responseText_of_ok (env : Env) (st : StoreState) (sp um : String)
    (hist : List Msg) (cid : Option String) (i : Nat) (o : Option String) (t : String)
    (h : env.llm sp (buildMessages hist um) = Except.ok t) :
    (callLlm env st sp um hist cid i o).responseText = t := by
  simp only [callLlm]
  rw [h]

theorem addMessage_llmLogs (st : StoreState) (cid role content : String)
    (md : Option (List (String × PyVal))) :
    (addMessage st cid role content md).llmLogs = st.llmLogs := rfl

theorem addMessage_llmCalls (st : StoreState) (cid role content : String)
    (md : Option (List (String × PyVal))) :
    (addMessage st cid role content md).llmCalls = st.llmCalls := rfl

/-- C1: the claim asserts that with a non-None `user_id` a memory-context
failure does not abort the turn and `run` still returns a result string.
The code contradicts it: `Agent.run` calls
`self.tool_registry.set_current_user_id(user_id)` (agent.py line 374), a
method `ToolRegistry` does not define (src/agent/tools.py has no such
attribute), so with any truthy `user_id` the run raises AttributeError —
outside any try/except, before memory context is even gathered — and
returns no result string. -/
theorem c1_run_with_user_id_raises (env : Env) (reg : ToolRegistry) (task : String)
    (cidOpt : Option String) (u : String) (n : Nat) (st0 : StoreState) (hu : u ≠ "") :
    agentRun env reg task cidOpt (some u) n st0
      = Except.error set_current_user_id_attr_error := by
  simp [agentRun, pyTruthyOptStr, hu]

/-- Witness for C1 at a concrete call. -/
theorem c1_run_with_user_id_raises_witness :
    agentRun sampleThoughtEnv sampleReg "hello" (some "c1") (some "123") 3 sampleStore
      = Except.error set_current_user_id_attr_error :=
  c1_run_with_user_id_raises sampleThoughtEnv sampleReg "hello" (some "c1") "123" 3 sampleStore
    (by decide)

/-- No iteration of the agent loop ever persists an `llm_logs` row: every
logging attempt fails its keyword binding (see `tryLogRequest`) and the
other store writes touch only `interactions`. -/
theorem agentLoop_llmLogs (env : Env) (reg : ToolRegistry) (sp out task cid : String) :
    ∀ (rem i : Nat) (ls : LoopState),
      ((agentLoop env reg sp out task cid i rem ls).2).store.llmLogs = ls.store.llmLogs := by
  intro rem
  induction rem with
  | zero => intro i ls; rfl
  | succ rem ih =>
    intro i ls
    simp only [agentLoop, callLlm_logEntry, callLlm_store]
    split
    · simp [addMessage_llmLogs]
    · split
      · simp [addMessage_llmLogs]
      · split
        · simp [ih, addMessage_llmLogs]
        · simp [ih]

/-- C2: the claim asserts every model call made during `Agent.run` is
persisted via `LLMLogStore.log_request` and that the entry is later updated
via `update_tool_observations`. The code contradicts it: all three
`log_request` call sites in `Agent._call_llm` pass the keyword arguments
`current_task_brief` and `tool_observations`, which
`LLMLogStore.log_request` (llm_log_store.py lines 36-48) does not declare,
so every call raises TypeError — caught by the surrounding try/except —
and no entry is ever persisted; consequently `log_entry` is always `None`
and `update_tool_observations` (which `LLMLogStore` does not even define)
is never reached. Formally: the keyword binding fails, and every
completed run leaves the `llm_logs` table exactly as it found it. -/
theorem c2_llm_logging_never_persists :
    kwargsBindOk log_request_param_names call_llm_log_kwarg_names = false ∧
    (∀ (env : Env) (reg : ToolRegistry) (task : String) (cidOpt : Option String)
       (n : Nat) (st0 : StoreState) (r : String) (st' : StoreState),
      agentRun env reg task cidOpt none n st0 = Except.ok (r, st') →
      st'.llmLogs = st0.llmLogs) := by
  refine ⟨kwargs_bind_fails, ?_⟩
  intro env reg task cidOpt n st0 r st' h
  simp only [agentRun, pyTruthyOptStr] at h
  set cid := (match cidOpt with | some c => c | none => env.freshConversationId) with hcid
  cases hr : (agentLoop env reg
      (env.buildSystemPrompt (ToolRegistry.get_descriptions reg) none none none)
      (build_task_prompt task "") task cid 0 n
      { history := (getConversation st0 cid).map (fun rr => (⟨runRoleConv rr.role, rr.content⟩ : Msg)),
        currentPrompt := build_task_prompt task "", extractedFocus := none,
        collectedObs := [], store := addMessage st0 cid "user" task none }).1 with
  | some fr =>
    rw [hr] at h
    have h2 : (fr, ((agentLoop env reg
        (env.buildSystemPrompt (ToolRegistry.get_descriptions reg) none none none)
        (build_task_prompt task "") task cid 0 n
        { history := (getConversation st0 cid).map (fun rr => (⟨runRoleConv rr.role, rr.content⟩ : Msg)),
          currentPrompt := build_task_prompt task "", extractedFocus := none,
          collectedObs := [], store := addMessage st0 cid "user" task none }).2).store) = (r, st') :=
      Except.ok.inj h
    cases h2
    exact agentLoop_llmLogs env reg _ _ task cid n 0 _
  | none =>
    rw [hr] at h
    have h2 : (fallback_response, addMessage ((agentLoop env reg
        (env.buildSystemPrompt (ToolRegistry.get_descriptions reg) none none none)
        (build_task_prompt task "") task cid 0 n
        { history := (getConversation st0 cid).map (fun rr => (⟨runRoleConv rr.role, rr.content⟩ : Msg)),
          currentPrompt := build_task_prompt task "", extractedFocus := none,
          collectedObs := [], store := addMessage st0 cid "user" task none }).2).store cid "agent"
          fallback_response (some [("type", PyVal.str "max_iterations_reached")])) = (r, st') :=
      Except.ok.inj h
    cases h2
    exact agentLoop_llmLogs env reg _ _ task cid n 0 _

/-- Witness for C2: a concrete one-iteration run makes one model call yet
persists no log entry. -/
theorem c2_llm_logging_never_persists_witness :
    kwargsBindOk log_request_param_names call_llm_log_kwarg_names = false ∧
    sampleRunState.llmLogs = sampleStore.llmLogs := by
  have hrun : agentRun sampleThoughtEnv sampleReg "hi" (some "c1") none 1 sampleStore
      = Except.ok (fallback_response, sampleRunState) := rfl
  exact ⟨c2_llm_logging_never_persists.1,
    c2_llm_logging_never_persists.2 sampleThoughtEnv sampleReg "hi" (some "c1") 1 sampleStore
      fallback_response sampleRunState hrun⟩

/-- Under a model stub whose responses carry none of the three routing
markers, every loop iteration takes the bare-thought branch: the loop never
terminates early, writes no interaction rows, and performs exactly one
model call per remaining iteration (agent.py lines 422-517). -/
theorem agentLoop_thought_only (env : Env) (reg : ToolRegistry) (sp out task cid : String)
    (stub : String → List Msg → String)
    (hllm : env.llm = fun sys msgs => Except.ok (stub sys msgs))
    (hmark : ∀ sys msgs,
      containsLit finalAnswerLit (stub sys msgs).data = false ∧
      containsLit draftLit (stub sys msgs).data = false ∧
      containsLit actionLit (stub sys msgs).data = false) :
    ∀ (rem i : Nat) (ls : LoopState),
      (agentLoop env reg sp out task cid i rem ls).1 = none ∧
      ((agentLoop env reg sp out task cid i rem ls).2).store.interactions
        = ls.store.interactions ∧
      ((agentLoop env reg sp out task cid i rem ls).2).store.nextInteractionId
        = ls.store.nextInteractionId ∧
      ((agentLoop env reg sp out task cid i rem ls).2).store.llmCalls
        = ls.store.llmCalls + rem := by
  intro rem
  induction rem with
  | zero => intro i ls; exact ⟨rfl, rfl, rfl, rfl⟩
  | succ rem ih =>
    intro i ls
    have hresp : (callLlm env ls.store sp ls.currentPrompt ls.history (some cid) i (some task)).responseText
        = stub sp (buildMessages ls.history ls.currentPrompt) :=
      callLlm_responseText_of_ok env ls.store sp ls.currentPrompt ls.history (some cid) i
        (some task) _ (by rw [hllm])
    obtain ⟨hm1, hm2, hm3⟩ := hmark sp (buildMessages ls.history ls.currentPrompt)
    have htype : (parse_response env.jsonLoads
        ((callLlm env ls.store sp ls.currentPrompt ls.history (some cid) i (some task)).responseText)).type
          = "thought" := by
      rw [hresp]
      exact parse_response_type_thought _ _ hm1 hm2 hm3
    have hne1 : ¬ ((parse_response env.jsonLoads
        ((callLlm env ls.store sp ls.currentPrompt ls.history (some cid) i (some task)).responseText)).type
          = "final_answer") := by rw [htype]; decide
    have hne2 : ¬ ((parse_response env.jsonLoads
        ((callLlm env ls.store sp ls.currentPrompt ls.history (some cid) i (some task)).responseText)).type
          = "draft_for_approval") := by rw [htype]; decide
    have hne3 : ¬ ((parse_response env.jsonLoads
        ((callLlm env ls.store sp ls.currentPrompt ls.history (some cid) i (some task)).responseText)).type
          = "action") := by rw [htype]; decide
    simp only [agentLoop]
    rw [if_neg hne1, if_neg hne2, if_neg hne3]
    refine ⟨(ih (i + 1) _).1, ?_, ?_, ?_⟩
    · rw [(ih (i + 1) _).2.1, callLlm_store]
    · rw [(ih (i + 1) _).2.2.1, callLlm_store]
    · rw [(ih (i + 1) _).2.2.2, callLlm_store]
      show ls.store.llmCalls + 1 + rem = ls.store.llmCalls + (rem + 1)
      omega

/-- C3: with any deterministic model stub whose every response contains
only a `THOUGHT:` marker (no `ACTION:`, `FINAL_ANSWER:` or
`DRAFT_FOR_APPROVAL:`), `Agent.run` with `max_iterations = n ≥ 1` performs
exactly `n` model-call iterations, returns the fixed fallback message, and
persists that message as an agent turn whose metadata type is
`max_iterations_reached` — distinguished from a genuine final answer, whose
metadata type would be `final_answer` (agent.py lines 422-433, 512-525). -/
theorem c3_thought_only_stub_exhausts (env : Env) (reg : ToolRegistry)
    (stub : String → List Msg → String)
    (hllm : env.llm = fun sys msgs => Except.ok (stub sys msgs))
    (_hthought : ∀ sys msgs, containsLit thoughtLit (stub sys msgs).data = true)
    (hmark : ∀ sys msgs,
      containsLit finalAnswerLit (stub sys msgs).data = false ∧
      containsLit draftLit (stub sys msgs).data = false ∧
      containsLit actionLit (stub sys msgs).data = false)
    (task : String) (cidOpt : Option String) (n : Nat) (st0 : StoreState) (_hn : 1 ≤ n) :
    ∃ (st' : StoreState) (rid : Nat),
      agentRun env reg task cidOpt none n st0 = Except.ok (fallback_response, st') ∧
      st'.llmCalls = st0.llmCalls + n ∧
      st'.interactions.getLast? = some
        { id := rid,
          conversation_id := match cidOpt with | some c => c | none => env.freshConversationId,
          role := "agent", content := fallback_response,
          metadata := [("type", PyVal.str "max_iterations_reached")] } := by
  simp only [agentRun, pyTruthyOptStr, Bool.false_eq_true, if_false]
  set cid := (match cidOpt with | some c => c | none => env.freshConversationId) with hcid
  set L := agentLoop env reg
      (env.buildSystemPrompt (ToolRegistry.get_descriptions reg) none none none)
      (build_task_prompt task "") task cid 0 n
      { history := (getConversation st0 cid).map (fun rr => (⟨runRoleConv rr.role, rr.content⟩ : Msg)),
        currentPrompt := build_task_prompt task "", extractedFocus := none,
        collectedObs := [], store := addMessage st0 cid "user" task none } with hL
  have hloop := agentLoop_thought_only env reg
    (env.buildSystemPrompt (ToolRegistry.get_descriptions reg) none none none)
    (build_task_prompt task "") task cid stub hllm hmark n 0
    { history := (getConversation st0 cid).map (fun rr => (⟨runRoleConv rr.role, rr.content⟩ : Msg)),
      currentPrompt := build_task_prompt task "", extractedFocus := none,
      collectedObs := [], store := addMessage st0 cid "user" task none }
  rw [← hL] at hloop
  refine ⟨addMessage L.2.store cid "agent" fallback_response
      (some [("type", PyVal.str "max_iterations_reached")]),
    L.2.store.nextInteractionId, ?_, ?_, ?_⟩
  · rw [hloop.1]
  · rw [addMessage_llmCalls, hloop.2.2.2]
    rfl
  · simp only [addMessage, Option.getD_some]
    rw [List.getLast?_concat]

/-- Witness for C3 at a concrete one-iteration thought-only run. -/
theorem c3_thought_only_stub_exhausts_witness :
    agentRun sampleThoughtEnv sampleReg "hi" (some "c1") none 1 sampleStore
      = Except.ok (fallback_response, sampleRunState) ∧
    sampleRunState.llmCalls = sampleStore.llmCalls + 1 ∧
    sampleRunState.interactions.getLast? = some
      { id := 1, conversation_id := "c1", role := "agent", content := fallback_response,
        metadata := [("type", PyVal.str "max_iterations_reached")] } := by
  obtain ⟨st', rid, h1, h2, h3⟩ := c3_thought_only_stub_exhausts sampleThoughtEnv sampleReg
    sampleThoughtStub rfl (fun _ _ => rfl) (fun _ _ => ⟨rfl, rfl, rfl⟩) "hi" (some "c1") 1
    sampleStore (by decide)
  have hrun : agentRun sampleThoughtEnv sampleReg "hi" (some "c1") none 1 sampleStore
      = Except.ok (fallback_response, sampleRunState) := rfl
  have hst : st' = sampleRunState := congrArg Prod.snd (Except.ok.inj (h1.symm.trans hrun))
  subst hst
  exact ⟨hrun, h2, rfl⟩

/-- C6: when an action iteration dispatches to a registered tool whose
handler raises, `Agent.run` does not propagate the exception: the iteration
produces the observation string
`OBSERVATION: Error executing <name>: <error text>`, appends the action
text and the observation to in-loop history, persists the action as an
agent turn and the observation as a tool turn, and the loop continues with
the next iteration under the fixed continuation prompt (agent.py lines
460-510). -/
theorem c6_tool_error_contained (env : Env) (reg : ToolRegistry)
    (sp out task cid : String) (i rem : Nat) (ls : LoopState)
    (respText th nm e : String) (inp : PyVal) (t : Tool) (fc : Option String)
    (hllm : env.llm sp (buildMessages ls.history ls.currentPrompt) = Except.ok respText)
    (hparse : parse_response env.jsonLoads respText =
      { type := "action", content := th, action_name := some nm,
        action_input := some inp, focus := fc })
    (htool : ToolRegistry.get reg nm = some t)
    (herr : t.func inp = Except.error e) :
    agentLoop env reg sp out task cid i (rem + 1) ls =
      agentLoop env reg sp out task cid (i + 1) rem
        { history := (if i = 0 then ls.history ++ [⟨"user", out⟩] else ls.history)
            ++ [⟨"assistant", respText⟩,
                ⟨"user", "OBSERVATION: Error executing " ++ nm ++ ": " ++ e⟩],
          currentPrompt := continuation_prompt,
          extractedFocus := updateExtractedFocus ls.extractedFocus fc,
          collectedObs := ls.collectedObs
            ++ [⟨i, nm, inp, "OBSERVATION: Error executing " ++ nm ++ ": " ++ e⟩],
          store := addMessage
            (addMessage { ls.store with llmCalls := ls.store.llmCalls + 1 } cid "agent" respText
              (some [("type", PyVal.str "action"), ("tool_name", PyVal.str nm),
                     ("action_input", inp)]))
            cid "tool" ("OBSERVATION: Error executing " ++ nm ++ ": " ++ e)
            (some [("tool_name", PyVal.str nm)]) } := by
  have hresp := callLlm_responseText_of_ok env ls.store sp ls.currentPrompt ls.history
    (some cid) i (some task) respText hllm
  have hle := callLlm_logEntry env ls.store sp ls.currentPrompt ls.history (some cid) i (some task)
  have hst := callLlm_store env ls.store sp ls.currentPrompt ls.history (some cid) i (some task)
  have hexec : ToolRegistry.execute reg nm inp = Except.error e := by
    unfold ToolRegistry.execute
    rw [htool]
    exact herr
  simp only [agentLoop, hresp, hparse, hle, hst]
  rw [if_neg (by decide), if_neg (by decide)]
  simp only [if_true, Option.getD_some, hexec]

/-- Witness for C6: one concrete step in which the stubbed model requests
the always-failing tool. -/
theorem c6_tool_error_contained_witness :
    agentLoop sampleActionEnv sampleReg "SYS" "hi" "hi" "c1" 0 1
      { history := [], currentPrompt := "hi", extractedFocus := none,
        collectedObs := [], store := sampleStore } =
    agentLoop sampleActionEnv sampleReg "SYS" "hi" "hi" "c1" 1 0
      { history := (if 0 = 0 then ([] : List Msg) ++ [⟨"user", "hi"⟩] else [])
          ++ [⟨"assistant", "ACTION: boom\nACTION_INPUT: notjson"⟩,
              ⟨"user", "OBSERVATION: Error executing " ++ "boom" ++ ": " ++ "kaboom"⟩],
        currentPrompt := continuation_prompt,
        extractedFocus := updateExtractedFocus none none,
        collectedObs := [] ++ [⟨0, "boom", PyVal.dict [("raw_input", PyVal.str "notjson")],
            "OBSERVATION: Error executing " ++ "boom" ++ ": " ++ "kaboom"⟩],
        store := addMessage
          (addMessage { sampleStore with llmCalls := sampleStore.llmCalls + 1 } "c1" "agent"
            "ACTION: boom\nACTION_INPUT: notjson"
            (some [("type", PyVal.str "action"), ("tool_name", PyVal.str "boom"),
                   ("action_input", PyVal.dict [("raw_input", PyVal.str "notjson")])]))
          "c1" "tool" ("OBSERVATION: Error executing " ++ "boom" ++ ": " ++ "kaboom")
          (some [("tool_name", PyVal.str "boom")]) } := by
  exact c6_tool_error_contained sampleActionEnv sampleReg "SYS" "hi" "hi" "c1" 0 0
    { history := [], currentPrompt := "hi", extractedFocus := none,
      collectedObs := [], store := sampleStore }
    "ACTION: boom\nACTION_INPUT: notjson" "" "boom" "kaboom"
    (PyVal.dict [("raw_input", PyVal.str "notjson")]) sampleTool none
    rfl rfl rfl rfl
